import Mathlib

/-
Verification of the advanced-vector container (src/advanced-vector/vector.h).

The development is a shallow embedding of the C++ source:
* `AV.Vector α` models `Vector<T>`: `elems` is the list of live, constructed
  elements occupying the first `size_` slots of the `RawMemory` buffer
  (`data_`), and `cap` is `data_.Capacity()`.  `elems.length` corresponds to
  `size_`.
* Each member function of the source is translated to a Lean function on this
  state, following the source's statement order and branch structure.
* Move/copy dispatch (`std::is_nothrow_move_constructible_v<T> ||
  !std::is_copy_constructible_v<T>`) never changes which *values* end up in a
  slot, only which element constructor runs; the value-level model is therefore
  trait-free, and a separate operation-trace model (`AV.TypeTraits`,
  `AV.ElemOp`) records which element operations the compile-time dispatch
  selects.
* Exception behaviour of bulk transfers (which destination elements are
  constructed / destroyed when an element copy throws partway) is modelled by
  the step machine `AV.runBuild` over the per-operation step lists taken
  directly from the source's statement order.
* Allocation failure (`operator new` throwing in `RawMemory::Allocate`) is
  modelled by an oracle `can : Nat → Bool`; the `*Alloc` variants of the
  growing operations return `Except (Vector α) (Vector α)` where `.error st`
  means the exception propagates with the vector in state `st`.
-/

set_option autoImplicit false

namespace AV

universe u

variable {α : Type u}

/-- Model of `Vector<T>` (vector.h lines 102-373): `elems` lists the values of
the `size_` constructed elements in slots `[0, size_)` of the buffer `data_`;
`cap` is `data_.Capacity()`.  Slots `[elems.length, cap)` are uninitialized
raw memory and carry no value. -/
structure Vector (α : Type u) : Type u where
  elems : List α
  cap : Nat
deriving Repr, DecidableEq

/-- Model of `Vector::Size()` (line 338): returns `size_`. -/
def Vector.Size (v : Vector α) : Nat :=
  v.elems.length

/-- Model of `Vector::Capacity()` (line 342): returns `data_.Capacity()`. -/
def Vector.Capacity (v : Vector α) : Nat :=
  v.cap

/-- Model of `Vector()` (line 108): default state, no buffer, `size_ = 0`. -/
def Vector.mkEmpty : Vector α :=
  ⟨[], 0⟩

/-- Model of `Vector(size_t size)` (line 110): allocates for `size` elements and
value-constructs all of them (`std::uninitialized_value_construct_n`). -/
def Vector.mkSized [Inhabited α] (n : Nat) : Vector α :=
  ⟨List.replicate n default, n⟩

/-- Model of `Vector(size_t size, const T& value)` (line 114): allocates for `size`
elements and copy-constructs each from `value` (`std::uninitialized_fill_n`). -/
def Vector.mkFill (n : Nat) (x : α) : Vector α :=
  ⟨List.replicate n x, n⟩

/-- Model of `Vector(std::initializer_list<T>)` / `Vector(Iter, Iter)` (lines 119-128):
allocates exactly for the input length and copy-constructs each element in
order. -/
def Vector.mkFromList (l : List α) : Vector α :=
  ⟨l, l.length⟩

/-- Model of `Vector(const Vector&)` (line 130): allocates exactly `other.size_` and
copy-constructs from the source (`std::uninitialized_copy`). -/
def Vector.copyCtor (v : Vector α) : Vector α :=
  ⟨v.elems, v.elems.length⟩

/-- Model of `Vector(Vector&&)` (lines 134-136): steals `other.data_` and `other.size_`
via `std::exchange`, leaving the source with an empty buffer and `size_ = 0`.
Result: `(the new vector, the moved-from source)`. -/
def Vector.moveCtor (v : Vector α) : Vector α × Vector α :=
  (⟨v.elems, v.cap⟩, ⟨[], 0⟩)

/-- Model of `Vector::Swap` (lines 355-358): swaps `data_` and `size_` of the two
vectors.  Result: `(new state of this, new state of rhs)`. -/
def Vector.SwapOp (a b : Vector α) : Vector α × Vector α :=
  (⟨b.elems, b.cap⟩, ⟨a.elems, a.cap⟩)

/-- Model of `Vector::operator=(Vector&&)` (lines 168-174): `if (this != &rhs)
Swap(rhs);`.  `selfAlias` models the pointer identity test `this == &rhs`
(for genuine self-assignment the two argument states coincide).  Result:
`(new state of this, new state of rhs)`. -/
def Vector.moveAssignOp (selfAlias : Bool) (dst src : Vector α) : Vector α × Vector α :=
  if selfAlias then (dst, src) else Vector.SwapOp dst src

/-- Model of `Vector::operator=(const Vector&)` (lines 144-166).  `selfAlias` models
`this == &rhs` (early return).  Otherwise: if `Capacity() >= rhs.size_`, reuse
the buffer — `std::copy_n` the overlapping part, then either destroy this
vector's surplus tail or `std::uninitialized_copy` the extra suffix of `rhs`;
else build a temporary copy and swap it in. -/
def Vector.copyAssignOp (selfAlias : Bool) (dst src : Vector α) : Vector α :=
  if selfAlias then dst
  else if src.elems.length ≤ dst.cap then
    let m := min dst.elems.length src.elems.length
    let copied := src.elems.take m
    if src.elems.length < dst.elems.length then
      ⟨copied, dst.cap⟩
    else
      ⟨copied ++ src.elems.drop m, dst.cap⟩
  else
    (Vector.SwapOp dst (Vector.copyCtor src)).1

/-- Model of `Vector::Reserve` (lines 216-227): no-op when `new_capacity <= Capacity()`;
otherwise allocate, transfer all live elements into the new buffer
(`OverwriteData`: move when `T` is nothrow-move-constructible or not
copy-constructible, else copy — either way the values transferred are the
same), destroy the originals and swap buffers. -/
def Vector.Reserve (v : Vector α) (c : Nat) : Vector α :=
  if c ≤ v.cap then v else ⟨v.elems, c⟩

/-- Model of `Vector::Resize` (lines 229-250): shrinking destroys the tail `[new_size,
size_)`; growing past capacity allocates `new_size`, value-constructs the new
tail in the new buffer, transfers the old elements and swaps; growing within
capacity value-constructs the tail in place.  Ends with `size_ = new_size`. -/
def Vector.Resize [Inhabited α] (v : Vector α) (k : Nat) : Vector α :=
  if k < v.elems.length then
    ⟨v.elems.take k, v.cap⟩
  else if v.cap < k then
    ⟨v.elems ++ List.replicate (k - v.elems.length) (default : α), k⟩
  else
    ⟨v.elems ++ List.replicate (k - v.elems.length) (default : α), v.cap⟩

/-- Model of `std::construct_at(end(), Back())` or `std::construct_at(end(),
std::move(Back()))` (lines 298-302): the old last element's value is also
placed in the slot one past the end (value-level: both branches append the
last value). -/
def constructEndFromBack (l : List α) : List α :=
  l ++ l.drop (l.length - 1)

/-- Model of `std::move_backward(non_const_it, std::prev(end()), end())` (line 304) on a
buffer whose live part is `m` (already `size_ + 1` long): every element of
`[p, m.length - 1)` is move-assigned one slot to the right; slot `p` keeps its
old value until the temporary is assigned over it. -/
def moveBackwardOne (m : List α) (p : Nat) : List α :=
  m.take (p + 1) ++ (m.drop p).dropLast

/-- Mid-array branch of `Vector::Emplace` without reallocation (lines
295-306): materialize the new value in the temporary `new_value`, construct the
old last element into the end slot, shift `[p, size_ - 1)` one right by
`std::move_backward`, then move-assign the temporary into slot `p`. -/
def Vector.emplaceMid (v : Vector α) (p : Nat) (x : α) : Vector α :=
  ⟨(moveBackwardOne (constructEndFromBack v.elems) p).set p x, v.cap⟩

/-- Model of `Vector::Emplace` (lines 272-311).  `Capacity() == Size()`: allocate
`size_ == 0 ? 1 : size_ * 2`, construct the new element at offset `p` of the
new buffer, transfer the old elements around it (`OverwriteData`), destroy the
originals, swap.  Otherwise, at the end: one `std::construct_at`; mid-array:
`emplaceMid`. -/
def Vector.Emplace (v : Vector α) (p : Nat) (x : α) : Vector α :=
  if v.cap = v.elems.length then
    ⟨v.elems.take p ++ x :: v.elems.drop p, if v.elems.length = 0 then 1 else 2 * v.elems.length⟩
  else if p = v.elems.length then
    ⟨v.elems ++ [x], v.cap⟩
  else
    v.emplaceMid p x

/-- Model of `Vector::Insert` (lines 313-319): delegates to `Emplace`. -/
def Vector.Insert (v : Vector α) (p : Nat) (x : α) : Vector α :=
  v.Emplace p x

/-- Model of `Vector::PushBack` / `EmplaceBack` (lines 252-263): `Emplace(end(), ...)`. -/
def Vector.PushBack (v : Vector α) (x : α) : Vector α :=
  v.Emplace v.elems.length x

/-- Model of `Vector::PopBack` (lines 265-270): destroys the last element, decrements
`size_`. -/
def Vector.PopBack (v : Vector α) : Vector α :=
  ⟨v.elems.dropLast, v.cap⟩

/-- The left shift performed by `Vector::Erase` (lines 326-330):
`std::move`/`std::copy` of `[p+1, size_)` onto `[p, size_ - 1)`; slot
`size_ - 1` keeps its old value until `std::destroy_at(&Back())` (value-level:
both branches produce the same values). -/
def eraseShift (l : List α) (p : Nat) : List α :=
  l.take p ++ l.drop (p + 1) ++ l.drop (l.length - 1)

/-- Model of `Vector::Erase` (lines 321-336): shift `[p+1, size_)` one slot left (move
or copy per the compile-time dispatch), destroy the now-vacant last slot,
decrement `size_`. -/
def Vector.Erase (v : Vector α) (p : Nat) : Vector α :=
  ⟨(eraseShift v.elems p).dropLast, v.cap⟩

/-! ### Allocation-failure model

`RawMemory::Allocate` (lines 89-91) calls `operator new(n * sizeof(T))` when
`n > 0` (which may throw `std::bad_alloc`) and returns `nullptr` when `n = 0`.
The oracle `can` says which positive requests the memory provider can satisfy.
The `*Alloc` operation variants return `.error st` when the allocation throws,
carrying the vector state `st` observed by the caller as the exception
propagates; in the source the `RawMemory<T> new_data(...)` construction is the
first statement of each growth path, before any mutation of `data_`/`size_`. -/

/-- Model of `RawMemory::Allocate` (lines 89-91) under the oracle `can`. -/
def rawAllocate (can : Nat → Bool) (n : Nat) : Option Unit :=
  if n = 0 then some () else if can n then some () else none

/-- Model of `Vector::Reserve` (lines 216-227) with explicit allocation failure. -/
def Vector.ReserveAlloc (can : Nat → Bool) (v : Vector α) (c : Nat) :
    Except (Vector α) (Vector α) :=
  if c ≤ v.cap then .ok v
  else
    match rawAllocate can c with
    | none => .error v
    | some _ => .ok ⟨v.elems, c⟩

/-- Model of `Vector::Resize` (lines 229-250) with explicit allocation failure (only
the grow-past-capacity branch allocates). -/
def Vector.ResizeAlloc [Inhabited α] (can : Nat → Bool) (v : Vector α) (k : Nat) :
    Except (Vector α) (Vector α) :=
  if k < v.elems.length then .ok ⟨v.elems.take k, v.cap⟩
  else if v.cap < k then
    match rawAllocate can k with
    | none => .error v
    | some _ => .ok ⟨v.elems ++ List.replicate (k - v.elems.length) (default : α), k⟩
  else .ok ⟨v.elems ++ List.replicate (k - v.elems.length) (default : α), v.cap⟩

/-- Model of `Vector::Emplace` (lines 272-311) with explicit allocation failure (only
the reallocating branch allocates, requesting `size_ == 0 ? 1 : size_ * 2`). -/
def Vector.EmplaceAlloc (can : Nat → Bool) (v : Vector α) (p : Nat) (x : α) :
    Except (Vector α) (Vector α) :=
  if v.cap = v.elems.length then
    match rawAllocate can (if v.elems.length = 0 then 1 else 2 * v.elems.length) with
    | none => .error v
    | some _ =>
        .ok ⟨v.elems.take p ++ x :: v.elems.drop p,
             if v.elems.length = 0 then 1 else 2 * v.elems.length⟩
  else if p = v.elems.length then .ok ⟨v.elems ++ [x], v.cap⟩
  else .ok (v.emplaceMid p x)

/-! ### Exception model for copy-based bulk transfers

For a `T` that is copy-constructible but not nothrow-move-constructible, every
bulk transfer (`OverwriteData`, lines 366-372) runs `std::uninitialized_copy`.
When the `b`-th element copy throws, `std::uninitialized_copy` destroys exactly
the objects *it* constructed and rethrows; objects constructed in the new
buffer by *earlier* statements are untouched, and `RawMemory`'s destructor
(lines 39-41) only deallocates, it never destroys elements.  `runBuild`
executes a list of construction steps over the new buffer with a copy budget
`b` (the number of element copies that succeed before one throws) and returns
`(live, failed)`: the number of destination elements constructed and never
destroyed at the moment the exception propagates, and whether it propagated. -/

/-- One construction statement populating a fresh buffer. -/
inductive BuildStep : Type
  /-- Model of `std::construct_at` / `std::uninitialized_value_construct` of `k`
  elements: they stay constructed when a later statement throws. -/
  | construct (k : Nat)
  /-- Model of `std::uninitialized_copy` of `k` elements: on a throwing copy it
  destroys its own partial work and rethrows. -/
  | uninitCopy (k : Nat)
deriving Repr, DecidableEq

/-- Run the statement list with copy budget `b`; result `(live, failed)`. -/
def runBuild : List BuildStep → Nat → Nat → Nat × Bool
  | [], _, live => (live, false)
  | .construct k :: rest, b, live => runBuild rest b (live + k)
  | .uninitCopy k :: rest, b, live =>
      if k ≤ b then runBuild rest (b - k) (live + k) else (live, true)

/-- Model of `Vector(const Vector&)` (lines 130-132): one
`std::uninitialized_copy` of the `n` source elements into the new buffer. -/
def copyCtorSteps (n : Nat) : List BuildStep :=
  [.uninitCopy n]

/-- Transfer step of `Vector::Reserve` (lines 221-223): one `OverwriteData`
of the `n` live elements into the new buffer. -/
def reserveSteps (n : Nat) : List BuildStep :=
  [.uninitCopy n]

/-- Growth path of `Vector::Resize` (lines 239-245), old size `n`, new size
`k`: first `std::uninitialized_value_construct` of the `k - n` tail elements
(line 240), then `OverwriteData` of the `n` old elements (line 242). -/
def resizeGrowSteps (n k : Nat) : List BuildStep :=
  [.construct (k - n), .uninitCopy n]

/-- Reallocating path of `Vector::Emplace` (lines 280-290), old size `n`,
insert position `p`: `std::construct_at` of the new element at offset `p`
(line 284), then `OverwriteData` of the `p` elements before it (line 286),
then `OverwriteData` of the `n - p` elements after it (line 287). -/
def emplaceGrowSteps (n p : Nat) : List BuildStep :=
  [.construct 1, .uninitCopy p, .uninitCopy (n - p)]

/-! ### Operation-trace model of the compile-time move/copy dispatch -/

/-- The compile-time capabilities of `T` that drive the dispatch. -/
structure TypeTraits : Type where
  nothrowMoveConstructible : Bool
  copyConstructible : Bool
deriving Repr, DecidableEq

/-- The source's dispatch condition `std::is_nothrow_move_constructible_v<T>
|| !std::is_copy_constructible_v<T>` (lines 298, 326, 367). -/
def useMoveTransfer (tt : TypeTraits) : Bool :=
  tt.nothrowMoveConstructible || !tt.copyConstructible

/-- Element operations observable in the mid-array no-reallocation branch of
`Vector::Emplace` (lines 295-306), after the temporary is materialized. -/
inductive ElemOp : Type
  /-- Model of `std::construct_at(end(), std::move(Back()))` (line 299). -/
  | moveConstructAtEnd
  /-- Model of `std::construct_at(end(), Back())` (line 301). -/
  | copyConstructAtEnd
  /-- Model of `std::move_backward(non_const_it, std::prev(end()), end())` (line 304). -/
  | moveBackwardShift
  /-- A hypothetical `std::copy_backward` of the same range. -/
  | copyBackwardShift
  /-- Model of `*non_const_it = std::move(new_value)` (line 305). -/
  | assignTempAtPos
deriving Repr, DecidableEq

/-- Trace of element operations executed by the mid-array no-reallocation
branch of `Vector::Emplace` (lines 295-306): the end-slot construction is
move or copy per the dispatch; the shift is `std::move_backward`
unconditionally; then the temporary is assigned into slot `p`. -/
def emplaceMidOps (tt : TypeTraits) : List ElemOp :=
  [ if useMoveTransfer tt then .moveConstructAtEnd else .copyConstructAtEnd,
    .moveBackwardShift,
    .assignTempAtPos ]

/-- Modelled from the spec: the trace the specification describes for the same
branch — "shift the range `[p, oldEnd)` one slot rightward by move-backward
(or copy-backward if move unsafe)", i.e. the shift too is chosen by whether
`T`'s move can fail. -/
def specClaimedEmplaceMidOps (tt : TypeTraits) : List ElemOp :=
  [ if useMoveTransfer tt then .moveConstructAtEnd else .copyConstructAtEnd,
    if tt.nothrowMoveConstructible then .moveBackwardShift else .copyBackwardShift,
    .assignTempAtPos ]

/-! ### Aliasing model for `Insert(it, v[k])`

`Vector::Emplace` (line 296) materializes `T new_value(std::forward<Args>
(args)...)` *before* any element of the vector is shifted, so an argument that
is a reference into the vector itself is read while the vector still holds its
pre-call values.  Each branch below places the value read from slot `k` at the
point where the source reads the argument. -/

/-- Mid-array no-reallocation branch of `Vector::Emplace` called with a
reference to the vector's own element `k`: the temporary is constructed from
slot `k` first (line 296), then the shifting steps of `emplaceMid` run. -/
def Vector.emplaceMidSelfRef [Inhabited α] (v : Vector α) (p k : Nat) : Vector α :=
  v.emplaceMid p (v.elems.getD k default)

/-- Model of `Vector::Insert(begin() + p, v[k])` — `Emplace` where the argument aliases
the vector's own element `k`; in every branch the source reads the argument
before any live element is moved or overwritten. -/
def Vector.InsertSelfRef [Inhabited α] (v : Vector α) (p k : Nat) : Vector α :=
  if v.cap = v.elems.length then
    ⟨v.elems.take p ++ v.elems.getD k default :: v.elems.drop p,
     if v.elems.length = 0 then 1 else 2 * v.elems.length⟩
  else if p = v.elems.length then
    ⟨v.elems ++ [v.elems.getD k default], v.cap⟩
  else
    v.emplaceMidSelfRef p k

/-! ### Reachable states

Every state obtainable from the public interface starting from nothing:
constructors, assignment, `Swap`, growth, insertion and removal, with the
argument validity demanded by the source's `assert`s (lines 266, 274, 322). -/

/-- States of `Vector<T>` reachable through the public interface. -/
inductive Reach [Inhabited α] : Vector α → Prop
  | empty : Reach Vector.mkEmpty
  | sized (n : Nat) : Reach (Vector.mkSized n)
  | fill (n : Nat) (x : α) : Reach (Vector.mkFill n x)
  | fromList (l : List α) : Reach (Vector.mkFromList l)
  | copy {v : Vector α} : Reach v → Reach v.copyCtor
  | moveNew {v : Vector α} : Reach v → Reach v.moveCtor.1
  | moveOld {v : Vector α} : Reach v → Reach v.moveCtor.2
  | copyAssign {d s : Vector α} (b : Bool) :
      Reach d → Reach s → Reach (Vector.copyAssignOp b d s)
  | moveAssignDst {d s : Vector α} (b : Bool) :
      Reach d → Reach s → Reach (Vector.moveAssignOp b d s).1
  | moveAssignSrc {d s : Vector α} (b : Bool) :
      Reach d → Reach s → Reach (Vector.moveAssignOp b d s).2
  | swapFst {a c : Vector α} : Reach a → Reach c → Reach (Vector.SwapOp a c).1
  | swapSnd {a c : Vector α} : Reach a → Reach c → Reach (Vector.SwapOp a c).2
  | reserve {v : Vector α} (c : Nat) : Reach v → Reach (v.Reserve c)
  | resize {v : Vector α} (k : Nat) : Reach v → Reach (v.Resize k)
  | pushBack {v : Vector α} (x : α) : Reach v → Reach (v.PushBack x)
  | popBack {v : Vector α} : Reach v → Reach v.PopBack
  | emplace {v : Vector α} (p : Nat) (x : α) :
      p ≤ v.Size → Reach v → Reach (v.Emplace p x)
  | erase {v : Vector α} (p : Nat) : p < v.Size → Reach v → Reach (v.Erase p)

/-! ### List helper lemmas -/

theorem set_append_length_cons (xs : List α) (y x : α) (ys : List α) :
    (xs ++ y :: ys).set xs.length x = xs ++ x :: ys := by
  induction xs with
  | nil => rfl
  | cons a as ih => simp [ih]

theorem getD_cons_drop (l : List α) (p : Nat) (d : α) (h : p < l.length) :
    l.getD p d :: l.drop (p + 1) = l.drop p := by
  induction l generalizing p with
  | nil => simp at h
  | cons a as ih =>
    cases p with
    | zero => simp
    | succ q => simpa using ih q (by simpa using h)

theorem take_succ_getD (l : List α) (p : Nat) (d : α) (h : p < l.length) :
    l.take (p + 1) = l.take p ++ [l.getD p d] := by
  induction l generalizing p with
  | nil => simp at h
  | cons a as ih =>
    cases p with
    | zero => simp
    | succ q => simpa using ih q (by simpa using h)

theorem drop_length_sub_one (l : List α) (d : α) (h : 0 < l.length) :
    l.drop (l.length - 1) = [l.getD (l.length - 1) d] := by
  have h1 : l.length - 1 < l.length := by omega
  rw [← getD_cons_drop l (l.length - 1) d h1]
  have h2 : l.length - 1 + 1 = l.length := by omega
  rw [h2, List.drop_length]

theorem drop_length_sub_one_singleton (l : List α) (h : 0 < l.length) :
    ∃ a, l.drop (l.length - 1) = [a] := by
  have h1 : (l.drop (l.length - 1)).length = 1 := by
    rw [List.length_drop]
    omega
  exact List.length_eq_one.mp h1

theorem take_getD_drop (l : List α) (p : Nat) (d : α) (h : p < l.length) :
    l.take p ++ l.getD p d :: l.drop (p + 1) = l := by
  rw [getD_cons_drop l p d h, List.take_append_drop]

/-! ### Content lemmas for the element operations -/

theorem emplaceMid_elems (v : Vector α) (p : Nat) (x : α) (h : p < v.elems.length) :
    (v.emplaceMid p x).elems = v.elems.take p ++ x :: v.elems.drop p := by
  show (moveBackwardOne (constructEndFromBack v.elems) p).set p x = _
  rw [constructEndFromBack, drop_length_sub_one v.elems x (Nat.lt_of_le_of_lt (Nat.zero_le p) h),
    moveBackwardOne, List.take_append_of_le_length (by omega),
    List.drop_append_of_le_length (Nat.le_of_lt h), List.dropLast_concat,
    take_succ_getD v.elems p x h]
  have hlen : (v.elems.take p).length = p := List.length_take_of_le (Nat.le_of_lt h)
  calc ((v.elems.take p ++ [v.elems.getD p x]) ++ v.elems.drop p).set p x
      = (v.elems.take p ++ v.elems.getD p x :: v.elems.drop p).set (v.elems.take p).length x := by
        rw [hlen, List.append_assoc, List.singleton_append]
    _ = v.elems.take p ++ x :: v.elems.drop p := set_append_length_cons _ _ _ _

theorem Vector.Emplace_elems (v : Vector α) (p : Nat) (x : α) (h : p ≤ v.elems.length) :
    (v.Emplace p x).elems = v.elems.take p ++ x :: v.elems.drop p := by
  rw [Vector.Emplace]
  split
  · rfl
  · split
    · rename_i hp
      simp [hp, List.take_of_length_le (Nat.le_refl _), List.drop_length]
    · rename_i hp
      exact emplaceMid_elems v p x (Nat.lt_of_le_of_ne h hp)

theorem Vector.Emplace_size (v : Vector α) (p : Nat) (x : α) (h : p ≤ v.elems.length) :
    (v.Emplace p x).elems.length = v.elems.length + 1 := by
  rw [Vector.Emplace_elems v p x h]
  simp only [List.length_append, List.length_cons, List.length_take, List.length_drop]
  omega

theorem Vector.Emplace_cap (v : Vector α) (p : Nat) (x : α) :
    (v.Emplace p x).cap =
      if v.cap = v.elems.length then (if v.elems.length = 0 then 1 else 2 * v.elems.length)
      else v.cap := by
  rw [Vector.Emplace]
  split
  · rfl
  · split
    · rfl
    · rfl

theorem Vector.Erase_elems (v : Vector α) (p : Nat) (h : p < v.elems.length) :
    (v.Erase p).elems = v.elems.take p ++ v.elems.drop (p + 1) := by
  show (eraseShift v.elems p).dropLast = _
  obtain ⟨a, ha⟩ :=
    drop_length_sub_one_singleton v.elems (Nat.lt_of_le_of_lt (Nat.zero_le p) h)
  rw [eraseShift, ha]
  exact List.dropLast_concat

theorem Vector.PushBack_elems (v : Vector α) (x : α) :
    (v.PushBack x).elems = v.elems ++ [x] := by
  rw [Vector.PushBack, Vector.Emplace_elems v v.elems.length x (Nat.le_refl _),
    List.take_of_length_le (Nat.le_refl _), List.drop_length]

theorem Vector.PushBack_cap_le (v : Vector α) (x : α) :
    v.cap ≤ (v.PushBack x).cap := by
  rw [Vector.PushBack, Vector.Emplace_cap]
  split
  · rename_i hc
    split
    · omega
    · omega
  · exact Nat.le_refl _

/-- A whole sequence of `PushBack` calls, first element pushed first. -/
def pushSeq (v : Vector α) (xs : List α) : Vector α :=
  xs.foldl Vector.PushBack v

theorem pushSeq_elems (v : Vector α) (xs : List α) :
    (pushSeq v xs).elems = v.elems ++ xs := by
  induction xs generalizing v with
  | nil => simp [pushSeq]
  | cons a as ih =>
    show (pushSeq (v.PushBack a) as).elems = _
    rw [ih, Vector.PushBack_elems]
    simp

theorem pushSeq_cap_le (v : Vector α) (xs : List α) :
    v.cap ≤ (pushSeq v xs).cap := by
  induction xs generalizing v with
  | nil => exact Nat.le_refl _
  | cons a as ih =>
    exact Nat.le_trans (Vector.PushBack_cap_le v a) (ih (v.PushBack a))

theorem pushSeq_append (v : Vector α) (ys zs : List α) :
    pushSeq v (ys ++ zs) = pushSeq (pushSeq v ys) zs :=
  List.foldl_append _ _ _ _

/-! ### Preservation of `size_ ≤ Capacity()` by each operation -/

theorem copyAssignOp_inv (b : Bool) (d s : Vector α)
    (hd : d.elems.length ≤ d.cap) (_hs : s.elems.length ≤ s.cap) :
    (Vector.copyAssignOp b d s).elems.length ≤ (Vector.copyAssignOp b d s).cap := by
  cases b with
  | true => simpa [Vector.copyAssignOp] using hd
  | false =>
    by_cases h1 : s.elems.length ≤ d.cap
    · by_cases h2 : s.elems.length < d.elems.length
      · simp [Vector.copyAssignOp, h1, h2, List.length_take]
      · simp [Vector.copyAssignOp, h1, h2]
    · simp [Vector.copyAssignOp, h1, Vector.SwapOp, Vector.copyCtor]

theorem Reserve_inv (v : Vector α) (c : Nat) (hv : v.elems.length ≤ v.cap) :
    (v.Reserve c).elems.length ≤ (v.Reserve c).cap := by
  simp only [Vector.Reserve]
  split
  · exact hv
  · rename_i h1
    simp only
    omega

theorem Resize_inv [Inhabited α] (v : Vector α) (k : Nat) (hv : v.elems.length ≤ v.cap) :
    (v.Resize k).elems.length ≤ (v.Resize k).cap := by
  simp only [Vector.Resize]
  split
  · rename_i h1
    simp only [List.length_take]
    omega
  · rename_i h1
    split
    · rename_i h2
      simp only [List.length_append, List.length_replicate]
      omega
    · rename_i h2
      simp only [List.length_append, List.length_replicate]
      omega

theorem Emplace_inv (v : Vector α) (p : Nat) (x : α) (hp : p ≤ v.elems.length)
    (hv : v.elems.length ≤ v.cap) :
    (v.Emplace p x).elems.length ≤ (v.Emplace p x).cap := by
  rw [Vector.Emplace_size v p x hp, Vector.Emplace_cap]
  split
  · rename_i h1
    split
    · omega
    · omega
  · rename_i h1
    omega

theorem Erase_inv (v : Vector α) (p : Nat) (hp : p < v.elems.length)
    (hv : v.elems.length ≤ v.cap) :
    (v.Erase p).elems.length ≤ (v.Erase p).cap := by
  have he := Vector.Erase_elems v p hp
  show (v.Erase p).elems.length ≤ v.cap
  rw [he]
  simp only [List.length_append, List.length_take, List.length_drop]
  omega

/-! ### The claims -/

/-- C8: every state reachable from nothing through the public interface —
construction, assignment, `Swap`, `Reserve`, `Resize`, `PushBack`, `PopBack`,
`Emplace`/`Insert`, `Erase` — satisfies the representation invariant
`size_ ≤ Capacity()` (the first `size_` slots hold the constructed elements
`elems`, the remaining `Capacity() - size_` slots are uninitialized). -/
theorem claim_C8_reachable_invariant [Inhabited α] (v : Vector α) (h : Reach v) :
    v.elems.length ≤ v.cap := by
  induction h with
  | empty => simp [Vector.mkEmpty]
  | sized n => simp [Vector.mkSized]
  | fill n x => simp [Vector.mkFill]
  | fromList l => simp [Vector.mkFromList]
  | copy _ _ => simp [Vector.copyCtor]
  | moveNew _ ih => simpa [Vector.moveCtor] using ih
  | moveOld _ _ => simp [Vector.moveCtor]
  | copyAssign b _ _ ihd ihs => exact copyAssignOp_inv b _ _ ihd ihs
  | moveAssignDst b _ _ ihd ihs =>
    cases b with
    | true => simpa [Vector.moveAssignOp] using ihd
    | false => simpa [Vector.moveAssignOp, Vector.SwapOp] using ihs
  | moveAssignSrc b _ _ ihd ihs =>
    cases b with
    | true => simpa [Vector.moveAssignOp] using ihs
    | false => simpa [Vector.moveAssignOp, Vector.SwapOp] using ihd
  | swapFst _ _ iha ihc => simpa [Vector.SwapOp] using ihc
  | swapSnd _ _ iha ihc => simpa [Vector.SwapOp] using iha
  | reserve c _ ih => exact Reserve_inv _ c ih
  | resize k _ ih => exact Resize_inv _ k ih
  | pushBack x _ ih => exact Emplace_inv _ _ x (Nat.le_refl _) ih
  | popBack _ ih =>
    simp only [Vector.PopBack, List.length_dropLast]
    omega
  | emplace p x hp _ ih => exact Emplace_inv _ p x hp ih
  | erase p hp _ ih => exact Erase_inv _ p hp ih

/-- Witness for C8: a concrete reachable state satisfying the invariant. -/
theorem claim_C8_reachable_invariant_witness :
    ((Vector.mkEmpty : Vector Nat).PushBack 5).elems.length ≤
      ((Vector.mkEmpty : Vector Nat).PushBack 5).cap :=
  claim_C8_reachable_invariant _ (Reach.pushBack 5 Reach.empty)

/-- C5: for every starting vector and every sequence of `PushBack` calls, the
resulting content is the prior content followed by the pushed values in order,
and the capacity never decreases between any two points of the sequence. -/
theorem claim_C5_pushback_sequence (v : Vector α) (xs ys zs : List α) :
    (pushSeq v xs).elems = v.elems ++ xs ∧
    (xs = ys ++ zs → (pushSeq v ys).cap ≤ (pushSeq v xs).cap) := by
  refine ⟨pushSeq_elems v xs, ?_⟩
  rintro rfl
  rw [pushSeq_append]
  exact pushSeq_cap_le _ zs

/-- Witness for C5 at a concrete push sequence. -/
theorem claim_C5_pushback_sequence_witness :
    (pushSeq (Vector.mkEmpty : Vector Nat) [1, 2, 3]).elems = [1, 2, 3] ∧
    (pushSeq (Vector.mkEmpty : Vector Nat) [1]).cap ≤
      (pushSeq (Vector.mkEmpty : Vector Nat) [1, 2, 3]).cap := by
  have h := claim_C5_pushback_sequence (Vector.mkEmpty : Vector Nat) [1, 2, 3] [1] [2, 3]
  exact ⟨by simpa [Vector.mkEmpty] using h.1, h.2 rfl⟩

/-- C6: `Resize(k)` always ends with `size_ = k`; shrinking keeps the first
`k` elements unchanged; growing keeps the old elements unchanged and
value-constructs the new tail `[size_, k)` to `T`'s default value. -/
theorem claim_C6_resize_spec [Inhabited α] (v : Vector α) (k : Nat) :
    (v.Resize k).Size = k ∧
    (k < v.Size → (v.Resize k).elems = v.elems.take k) ∧
    (v.Size < k → (v.Resize k).elems.take v.Size = v.elems ∧
      (v.Resize k).elems.drop v.Size = List.replicate (k - v.Size) (default : α)) := by
  refine ⟨?_, ?_, ?_⟩
  · show (v.Resize k).elems.length = k
    simp only [Vector.Resize]
    split
    · rename_i h1
      simp only [List.length_take]
      omega
    · rename_i h1
      split
      · simp only [List.length_append, List.length_replicate]
        omega
      · simp only [List.length_append, List.length_replicate]
        omega
  · intro h
    simp only [Vector.Size] at h
    simp only [Vector.Resize, if_pos h]
  · intro h
    have h1 : ¬ k < v.elems.length := by
      simp only [Vector.Size] at h
      omega
    simp only [Vector.Resize, if_neg h1, Vector.Size]
    constructor
    · split
      · exact List.take_left' rfl
      · exact List.take_left' rfl
    · split
      · exact List.drop_left' rfl
      · exact List.drop_left' rfl

/-- Witness for C6 at a concrete vector, one shrink and one growth. -/
theorem claim_C6_resize_spec_witness :
    ((⟨[7, 8, 9], 3⟩ : Vector Nat).Resize 1).Size = 1 ∧
    ((⟨[7, 8, 9], 3⟩ : Vector Nat).Resize 1).elems = ([7, 8, 9] : List Nat).take 1 ∧
    ((⟨[7, 8, 9], 3⟩ : Vector Nat).Resize 5).elems.take 3 = [7, 8, 9] ∧
    ((⟨[7, 8, 9], 3⟩ : Vector Nat).Resize 5).elems.drop 3 = List.replicate 2 (default : Nat) := by
  have hshrink := claim_C6_resize_spec (⟨[7, 8, 9], 3⟩ : Vector Nat) 1
  have hgrow := claim_C6_resize_spec (⟨[7, 8, 9], 3⟩ : Vector Nat) 5
  have hg := hgrow.2.2 (by decide)
  exact ⟨hshrink.1, hshrink.2.1 (by decide), hg.1, hg.2⟩

/-- C7: inserting a value at a valid position `p` and erasing at `p` restores
the original element sequence, and erasing the element at a valid position `p`
and re-inserting it at `p` restores the original element sequence. -/
theorem claim_C7_insert_erase_roundtrip [Inhabited α] (v : Vector α) (x : α) (p : Nat) :
    (p ≤ v.Size → ((v.Insert p x).Erase p).elems = v.elems) ∧
    (p < v.Size → ((v.Erase p).Insert p (v.elems.getD p default)).elems = v.elems) := by
  constructor
  · intro h
    have h1 : (v.Insert p x).elems = v.elems.take p ++ x :: v.elems.drop p :=
      Vector.Emplace_elems v p x h
    have ht : (v.elems.take p).length = p := List.length_take_of_le h
    have hlen : p < (v.Insert p x).elems.length := by
      rw [h1]
      simp only [List.length_append, List.length_cons]
      omega
    rw [Vector.Erase_elems _ _ hlen, h1]
    have e1 : (v.elems.take p ++ x :: v.elems.drop p).take p = v.elems.take p :=
      List.take_left' ht
    have e2 : (v.elems.take p ++ x :: v.elems.drop p).drop (p + 1) = v.elems.drop p := by
      rw [show v.elems.take p ++ x :: v.elems.drop p
            = (v.elems.take p ++ [x]) ++ v.elems.drop p by simp]
      exact List.drop_left' (by simp [ht])
    rw [e1, e2, List.take_append_drop]
  · intro h
    have he : (v.Erase p).elems = v.elems.take p ++ v.elems.drop (p + 1) :=
      Vector.Erase_elems v p h
    have ht : (v.elems.take p).length = p := List.length_take_of_le (Nat.le_of_lt h)
    have hsz : p ≤ (v.Erase p).elems.length := by
      rw [he]
      simp only [List.length_append]
      omega
    show ((v.Erase p).Emplace p (v.elems.getD p default)).elems = v.elems
    rw [Vector.Emplace_elems _ p _ hsz, he, List.take_left' ht, List.drop_left' ht]
    exact take_getD_drop v.elems p default h

/-- Witness for C7: the round trip at a concrete vector and position. -/
theorem claim_C7_insert_erase_roundtrip_witness :
    (((⟨[1, 2, 3], 4⟩ : Vector Nat).Insert 1 9).Erase 1).elems = [1, 2, 3] ∧
    (((⟨[1, 2, 3], 4⟩ : Vector Nat).Erase 1).Insert 1
      (([1, 2, 3] : List Nat).getD 1 default)).elems = [1, 2, 3] := by
  have h := claim_C7_insert_erase_roundtrip (⟨[1, 2, 3], 4⟩ : Vector Nat) 9 1
  exact ⟨h.1 (by decide), h.2 (by decide)⟩

/-- C1 (code bug): evaluation of the copy-based bulk transfers at failing
inputs.  `Resize(3)` on a vector of size 1 with the first element copy
throwing (`runBuild (resizeGrowSteps 1 3) 0 0`) propagates the failure with
`2` destination elements — the value-constructed tail — still constructed and
never destroyed; insert-with-growth at position 1 of a 2-element vector with
the second copy throwing leaves `2` live elements (the emplaced element and
the transferred one before `p`).  The copy constructor and `Reserve`, whose
transfer is the only construction into the new buffer, do unwind to `0` live
elements as the claim states. -/
theorem claim_C1_growth_transfer_leak :
    runBuild (resizeGrowSteps 1 3) 0 0 = (2, true) ∧
    runBuild (emplaceGrowSteps 2 1) 1 0 = (2, true) ∧
    runBuild (copyCtorSteps 5) 2 0 = (0, true) ∧
    runBuild (reserveSteps 4) 2 0 = (0, true) :=
  ⟨rfl, rfl, rfl, rfl⟩

/-- C2 (counterexample): move-assigning `A = [1]` into `B = [2, 3]` swaps the
buffers, so afterwards `A` holds `B`'s prior two elements — `A` is **not**
left with length 0 and capacity 0 as the claim states. -/
theorem claim_C2_cex_move_assign_source_not_emptied :
    ¬(((Vector.moveAssignOp false ⟨[2, 3], 2⟩ (⟨[1], 1⟩ : Vector Nat)).2).Size = 0 ∧
      ((Vector.moveAssignOp false ⟨[2, 3], 2⟩ (⟨[1], 1⟩ : Vector Nat)).2).cap = 0) := by
  decide

/-- C2 (amended): move construction of `B` from `A` gives `B` exactly `A`'s
prior content and capacity and leaves `A` empty (length 0, capacity 0); move
assignment `B = move(A)` swaps the two states, so `B` holds exactly `A`'s
prior content while `A` is left holding `B`'s prior content (so `A` ends empty
iff `B` was empty); neither operation touches any element. -/
theorem claim_C2_move_semantics (v d s : Vector α) :
    v.moveCtor.1.elems = v.elems ∧ v.moveCtor.1.cap = v.cap ∧
    v.moveCtor.2.Size = 0 ∧ v.moveCtor.2.cap = 0 ∧
    (Vector.moveAssignOp false d s).1.elems = s.elems ∧
    (Vector.moveAssignOp false d s).1.cap = s.cap ∧
    (Vector.moveAssignOp false d s).2.elems = d.elems ∧
    (Vector.moveAssignOp false d s).2.cap = d.cap :=
  ⟨rfl, rfl, rfl, rfl, rfl, rfl, rfl, rfl⟩

/-- C3 (counterexample): for a copyable `T` whose move may throw
(`nothrowMoveConstructible = false`, `copyConstructible = true`), the source's
mid-array insert trace differs from the spec's claimed trace: the code shifts
with `std::move_backward` while the claim demands copy-backward for such a
type. -/
theorem claim_C3_cex_shift_dispatch :
    emplaceMidOps ⟨false, true⟩ ≠ specClaimedEmplaceMidOps ⟨false, true⟩ := by
  decide

/-- C3 (amended): mid-array insert without growth constructs the new value in
a temporary, move-or-copy-constructs the current last element into the end
slot per the tie-break rule, shifts `[p, oldEnd - 1)` one slot rightward by
`std::move_backward` (move assignment) **unconditionally** — no copy-backward
variant exists — and then assigns the temporary into slot `p`; the resulting
content is the old content with the new value inserted at `p`. -/
theorem claim_C3_mid_insert_behavior (tt : TypeTraits) (v : Vector α) (p : Nat) (x : α)
    (h : p < v.Size) :
    emplaceMidOps tt =
      [if useMoveTransfer tt then ElemOp.moveConstructAtEnd else ElemOp.copyConstructAtEnd,
       ElemOp.moveBackwardShift, ElemOp.assignTempAtPos] ∧
    ElemOp.copyBackwardShift ∉ emplaceMidOps tt ∧
    (v.emplaceMid p x).elems = v.elems.take p ++ x :: v.elems.drop p := by
  refine ⟨rfl, ?_, emplaceMid_elems v p x h⟩
  rcases tt with ⟨nm, cp⟩
  cases nm <;> cases cp <;> decide

/-- Witness for C3's amended statement at a concrete type, vector and
position. -/
theorem claim_C3_mid_insert_behavior_witness :
    (Vector.emplaceMid (⟨[1, 2, 3], 4⟩ : Vector Nat) 1 9).elems = [1, 9, 2, 3] := by
  have h := claim_C3_mid_insert_behavior ⟨false, true⟩ (⟨[1, 2, 3], 4⟩ : Vector Nat) 1 9
    (by decide)
  simpa using h.2.2

/-- C4: when the buffer allocation requested by a growing operation fails, the
`AllocationError` propagates to the caller with the vector's length, capacity
and content exactly as before the call — each growth path allocates before it
mutates anything and only swaps in the new buffer after populating it. -/
theorem claim_C4_alloc_failure_unchanged [Inhabited α] (can : Nat → Bool) (v : Vector α)
    (c k p : Nat) (x : α) :
    (v.cap < c → can c = false → v.ReserveAlloc can c = .error v) ∧
    (v.elems.length ≤ k → v.cap < k → can k = false → v.ResizeAlloc can k = .error v) ∧
    (v.cap = v.elems.length →
      can (if v.elems.length = 0 then 1 else 2 * v.elems.length) = false →
      v.EmplaceAlloc can p x = .error v) := by
  refine ⟨?_, ?_, ?_⟩
  · intro h1 h2
    have hc0 : ¬ c = 0 := by omega
    simp [Vector.ReserveAlloc, rawAllocate, Nat.not_le.mpr h1, hc0, h2]
  · intro hk1 hk2 h2
    have hk0 : ¬ k = 0 := by omega
    have hk3 : ¬ k < v.elems.length := by omega
    simp [Vector.ResizeAlloc, rawAllocate, hk3, hk2, hk0, h2]
  · intro h1 h2
    have hr0 : ¬ (if v.elems.length = 0 then 1 else 2 * v.elems.length) = 0 := by
      split <;> omega
    simp [Vector.EmplaceAlloc, rawAllocate, h1, hr0, h2]

/-- Witness for C4: a full-everywhere-failing allocator leaves a concrete
vector unchanged through all three growing operations. -/
theorem claim_C4_alloc_failure_unchanged_witness :
    Vector.ReserveAlloc (fun _ => false) (⟨[5], 1⟩ : Vector Nat) 2 = .error ⟨[5], 1⟩ ∧
    Vector.ResizeAlloc (fun _ => false) (⟨[5], 1⟩ : Vector Nat) 3 = .error ⟨[5], 1⟩ ∧
    Vector.EmplaceAlloc (fun _ => false) (⟨[5], 1⟩ : Vector Nat) 0 7 = .error ⟨[5], 1⟩ := by
  have h := claim_C4_alloc_failure_unchanged (fun _ => false) (⟨[5], 1⟩ : Vector Nat) 2 3 0 7
  exact ⟨h.1 (by decide) rfl, h.2.1 (by decide) (by decide) rfl, h.2.2 (by decide) rfl⟩

/-- C9: assigning a vector to itself, by copy assignment or by move
assignment, is a no-op — for any state satisfying the representation
invariant, and whatever the outcome `b` of the source's `this == &rhs`
pointer test, the length, capacity and every element are unchanged. -/
theorem claim_C9_self_assignment_noop (v : Vector α) (b : Bool)
    (h : v.elems.length ≤ v.cap) :
    Vector.copyAssignOp b v v = v ∧ Vector.moveAssignOp b v v = (v, v) := by
  constructor
  · cases b with
    | true => rfl
    | false =>
      rcases v with ⟨l, c⟩
      simp only at h
      simp [Vector.copyAssignOp, h]
  · cases b with
    | true => rfl
    | false =>
      rcases v with ⟨l, c⟩
      rfl

/-- Witness for C9 at a concrete vector. -/
theorem claim_C9_self_assignment_noop_witness :
    Vector.copyAssignOp false (⟨[1, 2], 3⟩ : Vector Nat) ⟨[1, 2], 3⟩ = ⟨[1, 2], 3⟩ ∧
    Vector.moveAssignOp false (⟨[1, 2], 3⟩ : Vector Nat) ⟨[1, 2], 3⟩ =
      (⟨[1, 2], 3⟩, ⟨[1, 2], 3⟩) :=
  claim_C9_self_assignment_noop ⟨[1, 2], 3⟩ false (by decide)

/-- C10: mid-array insertion without reallocation is alias-safe — inserting a
reference to the vector's own element `k` at position `p` inserts the value
that element held before the call, because the temporary `new_value` is
materialized before any element is shifted. -/
theorem claim_C10_insert_alias_safe [Inhabited α] (v : Vector α) (p k : Nat)
    (hcap : v.Size < v.cap) (hp : p < v.Size) (_hk : k < v.Size) :
    (v.InsertSelfRef p k).elems =
      v.elems.take p ++ v.elems.getD k default :: v.elems.drop p := by
  simp only [Vector.Size] at hcap hp
  have hc : ¬ v.cap = v.elems.length := by omega
  have hpn : ¬ p = v.elems.length := by omega
  rw [Vector.InsertSelfRef, if_neg hc, if_neg hpn]
  show (v.emplaceMid p (v.elems.getD k default)).elems = _
  exact emplaceMid_elems v p _ hp

/-- Witness for C10: inserting `v[2]` at position 0 of `[10, 20, 30]` (spare
capacity available) inserts the pre-call value 30. -/
theorem claim_C10_insert_alias_safe_witness :
    (Vector.InsertSelfRef (⟨[10, 20, 30], 4⟩ : Vector Nat) 0 2).elems = [30, 10, 20, 30] := by
  have h := claim_C10_insert_alias_safe (⟨[10, 20, 30], 4⟩ : Vector Nat) 0 2
    (by decide) (by decide) (by decide)
  simpa using h

end AV
